import Mathlib

/-
  Verification of the Mythos story-generation application.

  Shallow embedding of the page-asset assembly pipeline, the narration
  player state machine, the story store, and the PCM audio decoder, as
  implemented in src/index.tsx, src/geminiService.ts and the unnamed
  localStorage-backed variant (src/unnamed/part_001).
-/

namespace Mythos

/-! ## Data model (src/types, as used by the code) -/

/-- A page draft produced by the content request: text plus an image prompt. -/
structure StoryPageDraft where
  text : String
  imagePrompt : String
deriving Repr, DecidableEq

/-- An assembled page: the draft fields plus resolved media. -/
structure Page where
  text : String
  imagePrompt : String
  imageUrl : String
  audioData : Option String
deriving Repr, DecidableEq

/-- A cast member of a story. -/
structure CastMember where
  id : String
  name : String
  role : String
deriving Repr, DecidableEq

/-- A story record as persisted by the store. -/
structure Story where
  id : String
  title : String
  genre : String
  mood : String
  style : String
  plot : String
  cast : List CastMember
  pages : List Page
  createdAt : Nat
  isFavorite : Bool
deriving Repr, DecidableEq

/-- Default page record, used as the out-of-range default for list lookups. -/
def defaultPage : Page :=
  { text := "", imagePrompt := "", imageUrl := "", audioData := none }

/-- Default draft record, used as the out-of-range default for list lookups. -/
def defaultDraft : StoryPageDraft := { text := "", imagePrompt := "" }

/-! ## Image generation (src/geminiService.ts, generateImageForPage)

The request either throws, or returns a candidate content whose parts each
optionally carry inline image data.  On the happy path the first part with
inline data becomes a data URL; otherwise (no data, or a thrown error that
the function catches) a picsum.photos URL parameterized by the value of
the Math.random() call is returned. -/

/-- The fallback URL built from the random value, as in the source's
template literal. -/
def picsumUrl (rnd : String) : String :=
  "https://picsum.photos/1024/1024?random=" ++ rnd

/-- Scan the response parts for the first inline image payload, as the
for-loop over response parts does in the source. -/
def firstInlineData : List (Option String) → Option String
  | [] => none
  | some d :: _ => some d
  | none :: rest => firstInlineData rest

/-- generateImageForPage: the request outcome is either an error (thrown,
then caught) or a list of parts; rnd is the Math.random() value used by
the fallback URL. -/
def generateImageForPage (res : Except Unit (List (Option String))) (rnd : String) : String :=
  match res with
  | Except.ok parts =>
    match firstInlineData parts with
    | some d => "data:image/png;base64," ++ d
    | none => picsumUrl rnd
  | Except.error _ => picsumUrl rnd

/-! ## Narration generation (src/geminiService.ts, generateNarration)

The retry loop runs attempts i = 0 .. retries.  Each attempt either
throws (caught: give up if i = retries, otherwise wait 1000*(i+1) ms and
retry), or succeeds without audio data (silently move on), or succeeds
with audio data (returned immediately).  We model the per-attempt outcome
with an oracle and return both the result and the list of backoff delays
performed. -/

/-- Outcome of one narration request attempt. -/
inductive NarrAttempt where
  | throws
  | okNone
  | okAudio (data : String)
deriving Repr, DecidableEq

/-- The body of the retry loop; fuel counts the remaining iterations of
the loop condition i ≤ retries. -/
def narrGo (att : Nat → NarrAttempt) (retries : Nat) : Nat → Nat → Option String × List Nat
  | _, 0 => (none, [])
  | i, fuel + 1 =>
    match att i with
    | NarrAttempt.okAudio d => (some d, [])
    | NarrAttempt.okNone => narrGo att retries (i + 1) fuel
    | NarrAttempt.throws =>
      if i = retries then (none, [])
      else
        let r := narrGo att retries (i + 1) fuel
        (r.1, 1000 * (i + 1) :: r.2)

/-- generateNarration with its retry loop (default retries = 2): returns
the audio payload, if any, together with the backoff delays taken. -/
def generateNarration (att : Nat → NarrAttempt) (retries : Nat) : Option String × List Nat :=
  narrGo att retries 0 (retries + 1)

/-! ## The asset assembler (src/index.tsx, handleGenerate loop)

The sequential loop walks the drafts in order; for draft i it reports
progress i+1, resolves the image, resolves the narration, and appends the
merged page.  imgOf and audOf are the resolved per-index asset values.
The second component collects every progress-counter value reported
(setGenProgress current), including the initial 0. -/

/-- Merge a draft with its resolved media, as the object spread does. -/
def mkPage (d : StoryPageDraft) (imageUrl : String) (audioData : Option String) : Page :=
  { text := d.text, imagePrompt := d.imagePrompt, imageUrl := imageUrl, audioData := audioData }

/-- The loop body, carrying the current index. -/
def assembleGo (imgOf : Nat → String) (audOf : Nat → Option String) :
    Nat → List StoryPageDraft → List Page × List Nat
  | _, [] => ([], [])
  | i, d :: rest =>
    let r := assembleGo imgOf audOf (i + 1) rest
    (mkPage d (imgOf i) (audOf i) :: r.1, (i + 1) :: r.2)

/-- The full sequential assembly: initial progress 0, then the loop. -/
def assemble (drafts : List StoryPageDraft) (imgOf : Nat → String)
    (audOf : Nat → Option String) : List Page × List Nat :=
  let r := assembleGo imgOf audOf 0 drafts
  (r.1, 0 :: r.2)

/-- The concurrent fan-out variant (src/unnamed/part_001): pages.map with
index over the drafts, results collected positionally by Promise.all. -/
def assembleFanOutGo (imgOf : Nat → String) (audOf : Nat → Option String) :
    Nat → List StoryPageDraft → List Page
  | _, [] => []
  | i, d :: rest => mkPage d (imgOf i) (audOf i) :: assembleFanOutGo imgOf audOf (i + 1) rest

/-- Fan-out assembly starting at index 0. -/
def assembleFanOut (drafts : List StoryPageDraft) (imgOf : Nat → String)
    (audOf : Nat → Option String) : List Page :=
  assembleFanOutGo imgOf audOf 0 drafts

/-! ## handleGenerate validation and persistence (src/unnamed/part_001)

The content request either throws or yields a result whose pages field
may be missing; the code throws (then alerts, persisting nothing) when
the result or its pages field is falsy, and otherwise assembles and adds
the story to the list.  The returned Bool is whether the error alert was
shown. -/

/-- The content request response: a title and an optional pages field
(missing pages models a malformed response shape). -/
structure ContentResult where
  title : String
  pagesOpt : Option (List StoryPageDraft)
deriving Repr, DecidableEq

/-- handleGenerate: returns the story list after the call and whether the
error alert was shown.  pageCount is the requested number of pages; the
code never compares it against the returned page list. -/
def handleGenerate (res : Except Unit ContentResult) (pageCount : Nat)
    (imgOf : Nat → String) (audOf : Nat → Option String) (now : Nat)
    (genre mood style plot : String) (cast : List CastMember)
    (prev : List Story) : List Story × Bool :=
  let _ := pageCount
  match res with
  | Except.error _ => (prev, true)
  | Except.ok r =>
    match r.pagesOpt with
    | none => (prev, true)
    | some drafts =>
      let story : Story :=
        { id := toString now, title := r.title, genre := genre, mood := mood,
          style := style, plot := plot, cast := cast,
          pages := assembleFanOut drafts imgOf audOf,
          createdAt := now, isFavorite := false }
      (story :: prev, false)

/-! ## Narration player (src/unnamed/part_001, stopAudio / playNarration)

State: the set of sources currently emitting audio (in the model a list),
the source held by audioSourceRef (by the clip it carries), and the
isNarrating flag.  stopAudio stops the referenced source (a no-op when it
already finished), clears the reference, and clears the flag.
playNarration first calls stopAudio, then creates, registers and starts a
new source.  The ended event is the onended callback of the referenced
source: that source ceases to play and the flag is cleared (the code does
not clear the reference there). -/

/-- Narration player state. -/
structure PlayerState where
  playing : List String
  current : Option String
  isNarrating : Bool
deriving Repr, DecidableEq

/-- The initial player state: no source, nothing playing. -/
def initPlayer : PlayerState := { playing := [], current := none, isNarrating := false }

/-- stopAudio from the source. -/
def stopAudio (s : PlayerState) : PlayerState :=
  match s.current with
  | some c =>
    { playing := s.playing.filter (fun x => ¬ (x = c)), current := none, isNarrating := false }
  | none => { s with isNarrating := false }

/-- playNarration from the source: stop, then start the new clip. -/
def playNarration (clip : String) (s : PlayerState) : PlayerState :=
  let s1 := stopAudio s
  { playing := clip :: s1.playing, current := some clip, isNarrating := true }

/-- Natural completion of the referenced source (its onended callback). -/
def endedEvent (s : PlayerState) : PlayerState :=
  match s.current with
  | some c =>
    { playing := s.playing.filter (fun x => ¬ (x = c)), current := s.current,
      isNarrating := false }
  | none => s

/-- The events the player reacts to. -/
inductive PlayerOp where
  | play (clip : String)
  | stop
  | ended
deriving Repr, DecidableEq

/-- One step of the player state machine. -/
def stepPlayer : PlayerOp → PlayerState → PlayerState
  | PlayerOp.play c, s => playNarration c s
  | PlayerOp.stop, s => stopAudio s
  | PlayerOp.ended, s => endedEvent s

/-- Run a sequence of player events. -/
def runPlayer (ops : List PlayerOp) (s : PlayerState) : PlayerState :=
  ops.foldl (fun st op => stepPlayer op st) s

/-- Player invariant: anything playing is the single referenced source. -/
def PlayerInv (s : PlayerState) : Prop :=
  ∀ c ∈ s.playing, s.playing = [c] ∧ s.current = some c

/-! ## Reader navigation

part_001's reader: the library button, the prev/next page buttons and
the sidebar view change all call stopAudio before updating the view or
page index.  index.tsx's keydown handler navigates without touching the
player. -/

/-- Application navigation state as far as the player is concerned. -/
structure AppState where
  view : String
  currentPageIndex : Nat
  player : PlayerState
deriving Repr, DecidableEq

/-- part_001 reader: the library button. -/
def navLibrary (s : AppState) : AppState :=
  { view := "library", currentPageIndex := s.currentPageIndex, player := stopAudio s.player }

/-- part_001 reader: the previous-page button. -/
def navPrevPage (s : AppState) : AppState :=
  { view := s.view, currentPageIndex := s.currentPageIndex - 1, player := stopAudio s.player }

/-- part_001 reader: the next-page button. -/
def navNextPage (s : AppState) : AppState :=
  { view := s.view, currentPageIndex := s.currentPageIndex + 1, player := stopAudio s.player }

/-- part_001 sidebar onViewChange: stopAudio then setView. -/
def sidebarViewChange (v : String) (s : AppState) : AppState :=
  { view := v, currentPageIndex := s.currentPageIndex, player := stopAudio s.player }

/-- A reader-view application state with the given page index and player
(the state in which the reader's navigation handlers run). -/
def readerState (pageIdx : Nat) (p : PlayerState) : AppState :=
  { view := "reader", currentPageIndex := pageIdx, player := p }

/-- index.tsx handleKeyDown: arrow keys clamp the page index and Escape
returns to the library; the player is not touched. -/
def handleKeyDown (key : String) (numPages : Nat) (s : AppState) : AppState :=
  if s.view = "reader" then
    if key = "ArrowRight" then
      { s with currentPageIndex := min (numPages - 1) (s.currentPageIndex + 1) }
    else if key = "ArrowLeft" then
      { s with currentPageIndex := s.currentPageIndex - 1 }
    else if key = "Escape" then
      { s with view := "library" }
    else s
  else s

/-! ## Story store deletion and localStorage persistence (part_001) -/

/-- deleteStory: drop every story whose id matches (part_001's filter;
the IndexedDB variant's keyed delete has the same effect on the record
set). -/
def deleteStory (id2 : String) (stories : List Story) : List Story :=
  stories.filter (fun s => ¬ (s.id = id2))

/-- In-memory story list plus the persisted localStorage value (the
parsed form of the serialized list, or none if nothing was written). -/
structure PersistedApp where
  stories : List Story
  storage : Option (List Story)
deriving Repr, DecidableEq

/-- The persistence effect: localStorage is written only when the story
list is non-empty. -/
def persistEffect (app : PersistedApp) : PersistedApp :=
  if app.stories.length > 0 then { app with storage := some app.stories } else app

/-- The mount effect: load the persisted list, if any. -/
def loadEffect (app : PersistedApp) : PersistedApp :=
  match app.storage with
  | some saved => { app with stories := saved }
  | none => app

/-- Deleting a story followed by the persistence effect that reacts to
the state change. -/
def deleteStoryApp (id2 : String) (app : PersistedApp) : PersistedApp :=
  persistEffect { app with stories := deleteStory id2 app.stories }

/-! ## PCM audio decoding (src/index.tsx, customDecodeAudioData)

The byte array is reinterpreted as little-endian int16 samples; each
channel's data at frame i is sample (i * numChannels + channel) divided
by 32768, with frameCount = sampleCount / numChannels.  Sample values are
modeled exactly in ℚ since division of an int16 by the power of two 32768
is exact in the floating formats the browser uses. -/

/-- Little-endian byte pair of an int16 value (the encoding side of the
round trip; the wire format of the narration payload). -/
def toLE16 (s : Int) : List Nat :=
  [((s % 65536).toNat) % 256, ((s % 65536).toNat) / 256]

/-- Encode an int16 sample sequence as raw little-endian PCM bytes. -/
def encodePCM (samples : List Int) : List Nat :=
  samples.flatMap toLE16

/-- Reinterpret a little-endian byte pair as a signed 16-bit value, as
the Int16Array view does. -/
def int16OfPair (b0 b1 : Nat) : Int :=
  let u := b0 + 256 * b1
  if u < 32768 then (u : Int) else (u : Int) - 65536

/-- The Int16Array view over the byte buffer. -/
def bytesToInt16 : List Nat → List Int
  | b0 :: b1 :: rest => int16OfPair b0 b1 :: bytesToInt16 rest
  | _ => []

/-- customDecodeAudioData: one list of normalized samples per channel. -/
def decodeAudioData (data : List Nat) (numChannels : Nat) : List (List ℚ) :=
  let dataInt16 := bytesToInt16 data
  let frameCount := dataInt16.length / numChannels
  (List.range numChannels).map fun ch =>
    (List.range frameCount).map fun i =>
      ((dataInt16.getD (i * numChannels + ch) 0 : Int) : ℚ) / 32768

/-! ## Helper lemmas about the assembler -/

/-- The sequential loop and the fan-out build the same page list. -/
theorem assembleGo_fst (imgOf : Nat → String) (audOf : Nat → Option String) :
    ∀ (drafts : List StoryPageDraft) (k : Nat),
      (assembleGo imgOf audOf k drafts).1 = assembleFanOutGo imgOf audOf k drafts
  | [], _ => rfl
  | d :: rest, k => by
    simp [assembleGo, assembleFanOutGo, assembleGo_fst imgOf audOf rest (k + 1)]

/-- The fan-out preserves the number of drafts. -/
theorem assembleFanOutGo_length (imgOf : Nat → String) (audOf : Nat → Option String) :
    ∀ (drafts : List StoryPageDraft) (k : Nat),
      (assembleFanOutGo imgOf audOf k drafts).length = drafts.length
  | [], _ => rfl
  | _ :: rest, k => by
    simp [assembleFanOutGo, assembleFanOutGo_length imgOf audOf rest (k + 1)]

/-- The fan-out page at position i is the draft at position i merged with
the assets resolved for absolute index k + i. -/
theorem assembleFanOutGo_getD (imgOf : Nat → String) (audOf : Nat → Option String) :
    ∀ (drafts : List StoryPageDraft) (k i : Nat), i < drafts.length →
      (assembleFanOutGo imgOf audOf k drafts).getD i defaultPage =
        mkPage (drafts.getD i defaultDraft) (imgOf (k + i)) (audOf (k + i))
  | [], _, i, hi => by simp at hi
  | d :: rest, k, 0, _ => by simp [assembleFanOutGo]
  | d :: rest, k, i + 1, hi => by
    have hk : k + (i + 1) = (k + 1) + i := by omega
    have ih := assembleFanOutGo_getD imgOf audOf rest (k + 1) i (by simpa using hi)
    simp only [assembleFanOutGo, List.getD_cons_succ, hk]
    exact ih

/-- Every page produced by the fan-out carries an asset value of some
absolute index. -/
theorem mem_assembleFanOutGo (imgOf : Nat → String) (audOf : Nat → Option String) :
    ∀ (drafts : List StoryPageDraft) (k : Nat) (p : Page),
      p ∈ assembleFanOutGo imgOf audOf k drafts →
      ∃ j d, p = mkPage d (imgOf j) (audOf j)
  | [], _, p, hp => by simp [assembleFanOutGo] at hp
  | d :: rest, k, p, hp => by
    simp only [assembleFanOutGo, List.mem_cons] at hp
    rcases hp with h | h
    · exact ⟨k, d, h⟩
    · exact mem_assembleFanOutGo imgOf audOf rest (k + 1) p h

/-- The progress values reported by the loop from index k onward. -/
theorem assembleGo_snd (imgOf : Nat → String) (audOf : Nat → Option String) :
    ∀ (drafts : List StoryPageDraft) (k : Nat),
      (assembleGo imgOf audOf k drafts).2 =
        (List.range drafts.length).map (fun j => k + j + 1)
  | [], _ => rfl
  | d :: rest, k => by
    have ih := assembleGo_snd imgOf audOf rest (k + 1)
    simp only [assembleGo, ih, List.length_cons, List.range_succ_eq_map, List.map_cons,
      List.map_map, Nat.add_zero, List.cons.injEq]
    refine ⟨trivial, ?_⟩
    apply List.map_congr_left
    intro a _
    simp only [Function.comp_apply, Nat.succ_eq_add_one]
    omega

/-- The full progress trace of one assembly is 0, 1, ..., drafts.length. -/
theorem assemble_snd (drafts : List StoryPageDraft) (imgOf : Nat → String)
    (audOf : Nat → Option String) :
    (assemble drafts imgOf audOf).2 = List.range (drafts.length + 1) := by
  simp only [assemble, assembleGo_snd, List.range_succ_eq_map, List.map_map,
    List.cons.injEq]
  refine ⟨trivial, ?_⟩
  apply List.map_congr_left
  intro a _
  simp only [Function.comp_apply, Nat.succ_eq_add_one]
  omega

/-- Claim C1: the assembled story has exactly as many pages as there are
drafts, the page at each index is derived from the draft at the same
index (with the assets resolved for that index), and the sequential and
the concurrent fan-out implementations produce the same page list. -/
theorem c1_assembly_preserves_length_and_order
    (drafts : List StoryPageDraft) (imgOf : Nat → String) (audOf : Nat → Option String)
    (i : Nat) (hi : i < drafts.length) :
    ((assemble drafts imgOf audOf).1).length = drafts.length ∧
    ((assemble drafts imgOf audOf).1).getD i defaultPage =
      mkPage (drafts.getD i defaultDraft) (imgOf i) (audOf i) ∧
    assembleFanOut drafts imgOf audOf = (assemble drafts imgOf audOf).1 := by
  have hfst := assembleGo_fst imgOf audOf drafts 0
  refine ⟨?_, ?_, ?_⟩
  · simp [assemble, hfst, assembleFanOutGo_length]
  · have := assembleFanOutGo_getD imgOf audOf drafts 0 i hi
    simpa [assemble, hfst] using this
  · simp [assemble, assembleFanOut, hfst]

/-- Witness for C1 at a concrete two-draft input. -/
theorem c1_witness :
    (0 < ([⟨"t1", "p1"⟩, ⟨"t2", "p2"⟩] : List StoryPageDraft).length) ∧
    (((assemble [⟨"t1", "p1"⟩, ⟨"t2", "p2"⟩] (fun _ => "u") (fun _ => none)).1).length =
        ([⟨"t1", "p1"⟩, ⟨"t2", "p2"⟩] : List StoryPageDraft).length ∧
      ((assemble [⟨"t1", "p1"⟩, ⟨"t2", "p2"⟩] (fun _ => "u") (fun _ => none)).1).getD 0
          defaultPage =
        mkPage (([⟨"t1", "p1"⟩, ⟨"t2", "p2"⟩] : List StoryPageDraft).getD 0 defaultDraft)
          "u" none ∧
      assembleFanOut [⟨"t1", "p1"⟩, ⟨"t2", "p2"⟩] (fun _ => "u") (fun _ => none) =
        (assemble [⟨"t1", "p1"⟩, ⟨"t2", "p2"⟩] (fun _ => "u") (fun _ => none)).1) :=
  ⟨by decide,
    c1_assembly_preserves_length_and_order [⟨"t1", "p1"⟩, ⟨"t2", "p2"⟩]
      (fun _ => "u") (fun _ => none) 0 (by decide)⟩

/-- Claim C5: during assembly of N drafts the progress counter starts at
0, increments by exactly one per completed page, is monotonically
non-decreasing, never exceeds N at any observation, and equals N after
assembly completes. -/
theorem c5_progress_counter (drafts : List StoryPageDraft) (imgOf : Nat → String)
    (audOf : Nat → Option String) :
    (assemble drafts imgOf audOf).2.length = drafts.length + 1 ∧
    (assemble drafts imgOf audOf).2.head? = some 0 ∧
    List.Chain' (fun a b => b = a + 1) (assemble drafts imgOf audOf).2 ∧
    List.Pairwise (· ≤ ·) (assemble drafts imgOf audOf).2 ∧
    ((assemble drafts imgOf audOf).2.all (fun x => x ≤ drafts.length)) = true ∧
    (assemble drafts imgOf audOf).2.getLast? = some drafts.length := by
  rw [assemble_snd]
  refine ⟨List.length_range _, ?_, ?_, ?_, ?_, ?_⟩
  · rw [List.range_succ_eq_map]; rfl
  · exact (List.chain'_range_succ _ _).mpr (fun m _ => rfl)
  · exact (List.pairwise_lt_range _).imp le_of_lt
  · rw [List.all_eq_true]
    intro x hx
    have := List.mem_range.mp hx
    simpa using by omega
  · rw [List.range_succ]
    exact List.getLast?_concat _

/-! ## Image fallback and validation claims -/

/-- A string with a non-empty prefix is non-empty. -/
theorem append_ne_empty (a b : String) (ha : 0 < a.length) : ¬ (a ++ b) = "" := by
  intro h
  have hl := congrArg String.length h
  rw [String.length_append] at hl
  have hz : ("" : String).length = 0 := rfl
  omega

/-- generateImageForPage never returns the empty string, on any outcome. -/
theorem generateImageForPage_ne_empty (res : Except Unit (List (Option String)))
    (rnd : String) : ¬ generateImageForPage res rnd = "" := by
  cases res with
  | error e =>
    simp only [generateImageForPage, picsumUrl]
    exact append_ne_empty _ _ (by decide)
  | ok parts =>
    cases hfd : firstInlineData parts with
    | some d =>
      simp only [generateImageForPage, hfd]
      exact append_ne_empty _ _ (by decide)
    | none =>
      simp only [generateImageForPage, hfd, picsumUrl]
      exact append_ne_empty _ _ (by decide)

/-- Claim C2 (code behavior at the failing input): when the content
response carries an empty pages array although five pages were
requested, handleGenerate shows no error and persists one story, whose
page list is empty. -/
theorem c2_empty_pages_persisted :
    (handleGenerate (Except.ok { title := "X", pagesOpt := some [] }) 5
        (fun _ => "img") (fun _ => none) 0 "g" "m" "s" "p" [] []).2 = false ∧
    ((handleGenerate (Except.ok { title := "X", pagesOpt := some [] }) 5
        (fun _ => "img") (fun _ => none) 0 "g" "m" "s" "p" [] []).1).map Story.pages =
      [[]] := by
  exact ⟨rfl, rfl⟩

/-- Claim C3 (counterexample): the substituted placeholder URL is not a
fixed deterministic URL — two failing requests with different values of
the random query parameter give different imageUrl results. -/
theorem c3_counterexample :
    generateImageForPage (Except.error ()) "0.1" ≠
      generateImageForPage (Except.error ()) "0.2" := by
  decide

/-- Claim C3 (amended): if the image request errors, the assembler
substitutes the picsum.photos placeholder URL parameterized by the
random value, swallows the failure, and every assembled page's imageUrl
is a non-empty string even when the image service always fails. -/
theorem c3_image_failure_policy (drafts : List StoryPageDraft) (rnd : Nat → String)
    (audOf : Nat → Option String) (i : Nat) (hi : i < drafts.length) :
    (((assemble drafts (fun j => generateImageForPage (Except.error ()) (rnd j))
          audOf).1).getD i defaultPage).imageUrl = picsumUrl (rnd i) ∧
    (((assemble drafts (fun j => generateImageForPage (Except.error ()) (rnd j))
          audOf).1).all (fun p => ¬ (p.imageUrl = ""))) = true := by
  constructor
  · have h := assembleFanOutGo_getD
      (fun j => generateImageForPage (Except.error ()) (rnd j)) audOf drafts 0 i hi
    have hfst := assembleGo_fst
      (fun j => generateImageForPage (Except.error ()) (rnd j)) audOf drafts 0
    simp only [Nat.zero_add] at h
    simp only [assemble]
    rw [hfst, h]
    simp [mkPage, generateImageForPage]
  · rw [List.all_eq_true]
    intro p hp
    have hfst := assembleGo_fst
      (fun j => generateImageForPage (Except.error ()) (rnd j)) audOf drafts 0
    simp only [assemble, hfst] at hp
    obtain ⟨j, d, rfl⟩ := mem_assembleFanOutGo _ _ drafts 0 p hp
    simpa [mkPage] using generateImageForPage_ne_empty (Except.error ()) (rnd j)

/-- Witness for C3 (amended) at a concrete one-draft input. -/
theorem c3_witness :
    (0 < ([⟨"t", "p"⟩] : List StoryPageDraft).length) ∧
    ((((assemble [⟨"t", "p"⟩]
            (fun j => generateImageForPage (Except.error ()) ((fun _ => "0.5") j))
            (fun _ => none)).1).getD 0 defaultPage).imageUrl =
        picsumUrl ((fun _ : Nat => "0.5") 0) ∧
      (((assemble [⟨"t", "p"⟩]
            (fun j => generateImageForPage (Except.error ()) ((fun _ => "0.5") j))
            (fun _ => none)).1).all (fun p => ¬ (p.imageUrl = ""))) = true) :=
  ⟨by decide,
    c3_image_failure_policy [⟨"t", "p"⟩] (fun _ => "0.5") (fun _ => none) 0 (by decide)⟩

/-- Claim C4: when every narration attempt fails, the bounded retry
policy performs the two extra attempts with delays 1000·1 and 1000·2,
the result of generateNarration depends only on the first three
attempts, the assembled page's audioData is left absent, and the page's
imageUrl is the independently resolved image value. -/
theorem c4_narration_failure_policy (att att2 : Nat → NarrAttempt)
    (hagree : ∀ j, j ≤ 2 → att2 j = att j)
    (hfail : ∀ j, att j = NarrAttempt.throws)
    (drafts : List StoryPageDraft) (imgOf : Nat → String) (i : Nat)
    (hi : i < drafts.length) :
    generateNarration att 2 = (none, [1000, 2000]) ∧
    generateNarration att2 2 = generateNarration att 2 ∧
    (((assemble drafts imgOf (fun _ => (generateNarration att 2).1)).1).getD i
        defaultPage).audioData = none ∧
    (((assemble drafts imgOf (fun _ => (generateNarration att 2).1)).1).getD i
        defaultPage).imageUrl = imgOf i := by
  have h0 : att 0 = NarrAttempt.throws := hfail 0
  have h1 : att 1 = NarrAttempt.throws := hfail 1
  have h2 : att 2 = NarrAttempt.throws := hfail 2
  have hmain : generateNarration att 2 = (none, [1000, 2000]) := by
    simp [generateNarration, narrGo, h0, h1, h2]
  have h0b : att2 0 = NarrAttempt.throws := (hagree 0 (by omega)).trans h0
  have h1b : att2 1 = NarrAttempt.throws := (hagree 1 (by omega)).trans h1
  have h2b : att2 2 = NarrAttempt.throws := (hagree 2 (by omega)).trans h2
  have hmain2 : generateNarration att2 2 = (none, [1000, 2000]) := by
    simp [generateNarration, narrGo, h0b, h1b, h2b]
  have hpage := assembleFanOutGo_getD imgOf (fun _ => (generateNarration att 2).1)
    drafts 0 i hi
  have hfst := assembleGo_fst imgOf (fun _ => (generateNarration att 2).1) drafts 0
  refine ⟨hmain, hmain2.trans hmain.symm, ?_, ?_⟩
  · simp only [Nat.zero_add] at hpage
    simp only [assemble]
    rw [hfst, hpage]
    simp [mkPage, hmain]
  · simp only [Nat.zero_add] at hpage
    simp only [assemble]
    rw [hfst, hpage]
    simp [mkPage]

/-- Witness for C4 at an always-failing narration oracle and a concrete
one-draft input. -/
theorem c4_witness :
    ((∀ j, j ≤ 2 →
        (fun _ : Nat => NarrAttempt.throws) j = (fun _ : Nat => NarrAttempt.throws) j) ∧
      (∀ j, (fun _ : Nat => NarrAttempt.throws) j = NarrAttempt.throws) ∧
      0 < ([⟨"t", "p"⟩] : List StoryPageDraft).length) ∧
    (generateNarration (fun _ => NarrAttempt.throws) 2 = (none, [1000, 2000]) ∧
      generateNarration (fun _ => NarrAttempt.throws) 2 =
        generateNarration (fun _ => NarrAttempt.throws) 2 ∧
      (((assemble [⟨"t", "p"⟩] (fun _ => "u")
            (fun _ => (generateNarration (fun _ => NarrAttempt.throws) 2).1)).1).getD 0
          defaultPage).audioData = none ∧
      (((assemble [⟨"t", "p"⟩] (fun _ => "u")
            (fun _ => (generateNarration (fun _ => NarrAttempt.throws) 2).1)).1).getD 0
          defaultPage).imageUrl = "u") :=
  ⟨⟨fun _ _ => rfl, fun _ => rfl, by decide⟩,
    c4_narration_failure_policy (fun _ => NarrAttempt.throws) (fun _ => NarrAttempt.throws)
      (fun _ _ => rfl) (fun _ => rfl) [⟨"t", "p"⟩] (fun _ => "u") 0 (by decide)⟩

/-! ## Narration player claims -/

/-- Under the invariant, stopAudio empties the playing set, clears the
source reference and clears the narration flag. -/
theorem stopAudio_spec (s : PlayerState) (h : PlayerInv s) :
    (stopAudio s).playing = [] ∧ (stopAudio s).current = none ∧
    (stopAudio s).isNarrating = false := by
  cases hc : s.current with
  | none =>
    cases hp : s.playing with
    | nil => simp [stopAudio, hc, hp]
    | cons a l =>
      have := (h a (by rw [hp]; exact List.mem_cons_self a l)).2
      rw [hc] at this
      exact absurd this (by simp)
  | some c =>
    refine ⟨?_, by simp [stopAudio, hc], by simp [stopAudio, hc]⟩
    simp only [stopAudio, hc]
    rw [List.filter_eq_nil_iff]
    intro a ha
    have := (h a ha).2
    rw [hc] at this
    simp at this ⊢
    exact this.symm

/-- The empty playing set satisfies the invariant. -/
theorem playerInv_of_nil (s : PlayerState) (hp : s.playing = []) : PlayerInv s := by
  intro c hc
  rw [hp] at hc
  exact absurd hc (by simp)

/-- playNarration preserves the invariant, and afterwards exactly the new
clip is playing and referenced. -/
theorem playNarration_spec (c : String) (s : PlayerState) (h : PlayerInv s) :
    PlayerInv (playNarration c s) ∧ (playNarration c s).playing = [c] ∧
    (playNarration c s).current = some c ∧ (playNarration c s).isNarrating = true := by
  have hs := stopAudio_spec s h
  refine ⟨?_, ?_, ?_, ?_⟩ <;> simp [playNarration, hs.1, PlayerInv]

/-- stopAudio preserves the invariant. -/
theorem playerInv_stopAudio (s : PlayerState) (h : PlayerInv s) :
    PlayerInv (stopAudio s) :=
  playerInv_of_nil _ (stopAudio_spec s h).1

/-- The ended event preserves the invariant. -/
theorem playerInv_endedEvent (s : PlayerState) (h : PlayerInv s) :
    PlayerInv (endedEvent s) := by
  cases hc : s.current with
  | none =>
    intro c hcm
    simp only [endedEvent, hc] at hcm
    have h2 := (h c hcm).2
    rw [hc] at h2
    exact absurd h2 (by simp)
  | some c =>
    apply playerInv_of_nil
    simp only [endedEvent, hc]
    rw [List.filter_eq_nil_iff]
    intro a ha
    have := (h a ha).2
    rw [hc] at this
    simp at this ⊢
    exact this.symm

/-- Every step of the player preserves the invariant. -/
theorem playerInv_step (op : PlayerOp) (s : PlayerState) (h : PlayerInv s) :
    PlayerInv (stepPlayer op s) := by
  cases op with
  | play c => exact (playNarration_spec c s h).1
  | stop => exact playerInv_stopAudio s h
  | ended => exact playerInv_endedEvent s h

/-- Every reachable player state satisfies the invariant. -/
theorem playerInv_run (ops : List PlayerOp) (s : PlayerState) (h : PlayerInv s) :
    PlayerInv (runPlayer ops s) := by
  induction ops generalizing s with
  | nil => exact h
  | cons op rest ih =>
    exact ih (stepPlayer op s) (playerInv_step op s h)

/-- The invariant bounds the number of simultaneously playing clips by one. -/
theorem playerInv_length (s : PlayerState) (h : PlayerInv s) : s.playing.length ≤ 1 := by
  cases hp : s.playing with
  | nil => simp
  | cons a l =>
    have := (h a (by rw [hp]; exact List.mem_cons_self a l)).1
    rw [hp] at this
    simp_all

/-- Claim C7: from any reachable player state, playing clip A and then
clip B without an intervening stop leaves exactly clip B playing and
referenced, and in every reachable state at most one clip is playing. -/
theorem c7_single_active_clip (A B : String) (ops : List PlayerOp) :
    (playNarration B (playNarration A (runPlayer ops initPlayer))).playing = [B] ∧
    (playNarration B (playNarration A (runPlayer ops initPlayer))).current = some B ∧
    (playNarration B (playNarration A (runPlayer ops initPlayer))).isNarrating = true ∧
    ((runPlayer ops initPlayer).playing).length ≤ 1 := by
  have h0 : PlayerInv initPlayer := playerInv_of_nil _ rfl
  have hr := playerInv_run ops initPlayer h0
  have hA := playNarration_spec A _ hr
  have hB := playNarration_spec B _ hA.1
  exact ⟨hB.2.1, hB.2.2.1, hB.2.2.2, playerInv_length _ hr⟩

/-- Claim C8 (counterexample): in the IndexedDB variant's keydown
handler, pressing ArrowRight in the reader while a clip is narrating
moves to the next page but leaves the clip playing — the stop transition
is not triggered on this page navigation. -/
theorem c8_counterexample :
    (handleKeyDown "ArrowRight" 2
        (readerState 0 (playNarration "a" initPlayer))).currentPageIndex = 1 ∧
    (handleKeyDown "ArrowRight" 2
        (readerState 0 (playNarration "a" initPlayer))).player.playing = ["a"] ∧
    (handleKeyDown "ArrowRight" 2
        (readerState 0 (playNarration "a" initPlayer))).player.isNarrating = true := by
  decide

/-- Claim C8 (amended): in the localStorage-backed variant the library
button, the previous/next page buttons and the sidebar view change each
stop narration (nothing remains playing, the flag is cleared) before
updating the view or the page index; the IndexedDB variant's keyboard
navigation does not. -/
theorem c8_partzero_navigation_stops (ops : List PlayerOp) (pageIdx : Nat) (v : String) :
    (navLibrary (readerState pageIdx (runPlayer ops initPlayer))).player.playing = [] ∧
    (navLibrary (readerState pageIdx (runPlayer ops initPlayer))).view = "library" ∧
    (navPrevPage (readerState pageIdx (runPlayer ops initPlayer))).player.playing = [] ∧
    (navPrevPage (readerState pageIdx (runPlayer ops initPlayer))).currentPageIndex =
      pageIdx - 1 ∧
    (navNextPage (readerState pageIdx (runPlayer ops initPlayer))).player.playing = [] ∧
    (navNextPage (readerState pageIdx (runPlayer ops initPlayer))).currentPageIndex =
      pageIdx + 1 ∧
    (sidebarViewChange v (readerState pageIdx (runPlayer ops initPlayer))).player.playing
      = [] ∧
    (sidebarViewChange v (readerState pageIdx (runPlayer ops initPlayer))).view = v ∧
    (navLibrary (readerState pageIdx (runPlayer ops initPlayer))).player.isNarrating
      = false := by
  have h0 : PlayerInv initPlayer := playerInv_of_nil _ rfl
  have hr := playerInv_run ops initPlayer h0
  have hs := stopAudio_spec _ hr
  exact ⟨hs.1, rfl, hs.1, rfl, hs.1, rfl, hs.1, rfl, hs.2.2⟩

/-! ## Story store claims -/

/-- Claim C9: store deletion is idempotent — deleting an id that no
story in the store carries leaves the store unchanged, and deleting the
same id twice has the same effect as deleting it once. -/
theorem c9_delete_idempotent (id2 : String) (stories stories2 : List Story)
    (h : ∀ s ∈ stories, ¬ (s.id = id2)) :
    deleteStory id2 stories = stories ∧
    deleteStory id2 (deleteStory id2 stories2) = deleteStory id2 stories2 := by
  constructor
  · apply List.filter_eq_self.mpr
    intro a ha
    simpa using h a ha
  · simp [deleteStory, List.filter_filter]

/-- Witness for C9 on a concrete store holding one story with another id. -/
theorem c9_witness :
    (∀ s ∈ [({ id := "y", title := "T", genre := "", mood := "", style := "", plot := "", cast := [], pages := [], createdAt := 0, isFavorite := false } : Story)], ¬ (s.id = "x")) ∧
    (deleteStory "x" [({ id := "y", title := "T", genre := "", mood := "", style := "", plot := "", cast := [], pages := [], createdAt := 0, isFavorite := false } : Story)] =
        [({ id := "y", title := "T", genre := "", mood := "", style := "", plot := "", cast := [], pages := [], createdAt := 0, isFavorite := false } : Story)] ∧
      deleteStory "x" (deleteStory "x" [({ id := "y", title := "T", genre := "", mood := "", style := "", plot := "", cast := [], pages := [], createdAt := 0, isFavorite := false } : Story)]) =
        deleteStory "x" [({ id := "y", title := "T", genre := "", mood := "", style := "", plot := "", cast := [], pages := [], createdAt := 0, isFavorite := false } : Story)]) :=
  ⟨by decide,
    c9_delete_idempotent "x"
      [{ id := "y", title := "T", genre := "", mood := "", style := "", plot := "", cast := [], pages := [], createdAt := 0, isFavorite := false }]
      [{ id := "y", title := "T", genre := "", mood := "", style := "", plot := "", cast := [], pages := [], createdAt := 0, isFavorite := false }]
      (by decide)⟩

/-- Claim C10: in the localStorage-backed variant the persistence effect
writes only when the story list is non-empty, so deleting the only
remaining story empties the in-memory list but leaves the persisted
storage unchanged, and a restart loads the deleted story back. -/
theorem c10_delete_last_not_persisted (s : Story) (st : Option (List Story)) :
    (deleteStoryApp s.id { stories := [s], storage := st }).stories = [] ∧
    (deleteStoryApp s.id { stories := [s], storage := st }).storage = st ∧
    (loadEffect { stories := [], storage := some [s] }).stories = [s] := by
  have hdel : deleteStory s.id [s] = [] := by simp [deleteStory]
  refine ⟨?_, ?_, rfl⟩
  · simp [deleteStoryApp, persistEffect, hdel]
  · simp [deleteStoryApp, persistEffect, hdel]

/-! ## PCM audio decoding claims -/

/-- Round trip of one int16 sample through its little-endian byte pair. -/
theorem int16OfPair_toLE16 (s : Int) (h1 : -32768 ≤ s) (h2 : s ≤ 32767) :
    int16OfPair (((s % 65536).toNat) % 256) (((s % 65536).toNat) / 256) = s := by
  have h3 : (0 : Int) ≤ s % 65536 := Int.emod_nonneg s (by norm_num)
  have h5 : (((s % 65536).toNat : Int)) = s % 65536 := Int.toNat_of_nonneg h3
  simp only [int16OfPair]
  split <;> push_cast <;> omega

/-- Decoding the bytes of one encoded sample prepends the sample. -/
theorem bytesToInt16_toLE16 (s : Int) (h1 : -32768 ≤ s) (h2 : s ≤ 32767)
    (rest : List Nat) :
    bytesToInt16 (toLE16 s ++ rest) = s :: bytesToInt16 rest := by
  simp only [toLE16, List.cons_append, List.nil_append, bytesToInt16]
  rw [int16OfPair_toLE16 s h1 h2]
  simp

/-- Decoding an encoded int16 sequence reconstructs every sample. -/
theorem bytesToInt16_encodePCM :
    ∀ (samples : List Int), (∀ s ∈ samples, -32768 ≤ s ∧ s ≤ 32767) →
      bytesToInt16 (encodePCM samples) = samples
  | [], _ => rfl
  | a :: l, h => by
    have ha := h a (List.mem_cons_self a l)
    have hl : ∀ s ∈ l, -32768 ≤ s ∧ s ≤ 32767 :=
      fun s hs => h s (List.mem_cons_of_mem a hs)
    have ih := bytesToInt16_encodePCM l hl
    simp only [encodePCM, List.flatMap_cons] at ih ⊢
    rw [bytesToInt16_toLE16 a ha.1 ha.2, ih]

/-- Reading a list back positionally over the range of its length is the
identity (composed with any function). -/
theorem range_map_getD {α β : Type} (l : List α) (dflt : α) (g : α → β) :
    (List.range l.length).map (fun i => g (l.getD i dflt)) = l.map g := by
  induction l with
  | nil => rfl
  | cons a t ih =>
    rw [List.length_cons, List.range_succ_eq_map, List.map_cons, List.map_map,
      List.map_cons]
    refine congrArg₂ _ (by simp) ?_
    rw [← ih]
    apply List.map_congr_left
    intro x _
    simp [Function.comp, List.getD_cons_succ]

/-- Mono decoding: one channel whose samples are the int16 values each
divided by 32768. -/
theorem decodeAudioData_mono (data : List Nat) :
    decodeAudioData data 1 =
      [(bytesToInt16 data).map (fun s : Int => (s : ℚ) / 32768)] := by
  have h01 : List.range 1 = [0] := rfl
  unfold decodeAudioData
  simp only [h01, List.map_cons, List.map_nil, Nat.div_one, Nat.mul_one, Nat.add_zero]
  rw [range_map_getD (bytesToInt16 data) 0 (fun s : Int => (s : ℚ) / 32768)]

/-- Every decoded channel has sampleCount / channelCount frames. -/
theorem decodeAudioData_channel_length (data : List Nat) (nc : Nat) :
    ∀ chl ∈ decodeAudioData data nc, chl.length = (bytesToInt16 data).length / nc := by
  intro chl hc
  unfold decodeAudioData at hc
  simp only [List.mem_map] at hc
  obtain ⟨ch, _, rfl⟩ := hc
  simp [List.length_map, List.length_range]

/-- Claim C6: decoding the little-endian 16-bit mono PCM encoding of any
int16 sample sequence reconstructs each sample exactly as sample/32768,
yields sampleCount / channelCount frames per channel, and every produced
value lies in the normalized range [-1, 1]. -/
theorem c6_decode_roundtrip (samples : List Int)
    (h : ∀ s ∈ samples, -32768 ≤ s ∧ s ≤ 32767) :
    decodeAudioData (encodePCM samples) 1 =
      [samples.map (fun s : Int => (s : ℚ) / 32768)] ∧
    (∀ chl ∈ decodeAudioData (encodePCM samples) 1,
      chl.length = (bytesToInt16 (encodePCM samples)).length / 1) ∧
    (∀ chl ∈ decodeAudioData (encodePCM samples) 1,
      ∀ q ∈ chl, -1 ≤ q ∧ q ≤ 1) := by
  have hb := bytesToInt16_encodePCM samples h
  refine ⟨?_, decodeAudioData_channel_length _ _, ?_⟩
  · rw [decodeAudioData_mono, hb]
  · intro chl hc q hq
    rw [decodeAudioData_mono, hb] at hc
    simp only [List.mem_singleton] at hc
    subst hc
    simp only [List.mem_map] at hq
    obtain ⟨s, hs, rfl⟩ := hq
    have hr := h s hs
    constructor
    · rw [le_div_iff₀ (by norm_num : (0 : ℚ) < 32768)]
      have hcast : (-32768 : ℚ) ≤ (s : ℚ) := by exact_mod_cast hr.1
      linarith
    · rw [div_le_one (by norm_num : (0 : ℚ) < 32768)]
      have hcast : (s : ℚ) ≤ 32767 := by exact_mod_cast hr.2
      linarith

/-- Witness for C6 on a concrete sample sequence covering both extremes. -/
theorem c6_witness :
    (∀ s ∈ ([1, -32768, 32767] : List Int), -32768 ≤ s ∧ s ≤ 32767) ∧
    (decodeAudioData (encodePCM [1, -32768, 32767]) 1 =
        [([1, -32768, 32767] : List Int).map (fun s : Int => (s : ℚ) / 32768)] ∧
      (∀ chl ∈ decodeAudioData (encodePCM [1, -32768, 32767]) 1,
        chl.length = (bytesToInt16 (encodePCM [1, -32768, 32767])).length / 1) ∧
      (∀ chl ∈ decodeAudioData (encodePCM [1, -32768, 32767]) 1,
        ∀ q ∈ chl, -1 ≤ q ∧ q ≤ 1)) :=
  ⟨by decide, c6_decode_roundtrip [1, -32768, 32767] (by decide)⟩

end Mythos
